import Mathlib

/-!
Shallow embedding of the `quant_trading_bot_starter` core of the
relentless-robotics/teleclaude repository, and theorems settling the spec's
claims about it.  The embedded modules are:

* `risk/position_sizer.py`  — the position-sizer family,
* `backtest/engine.py`      — the vectorized execution simulator,
* `risk/risk_manager.py`    — the portfolio risk manager state machine,
* `backtest/metrics.py`     — the performance-metrics calculator.

Modelling conventions:

* Python floats are modelled as exact rationals (`ℚ`) throughout the
  simulator, sizers and risk manager, whose arithmetic is purely
  field arithmetic.  The metrics module needs real powers and square
  roots, so it is modelled over `ℝ`.
* Python float division raises `ZeroDivisionError` on a zero divisor.
  In `KellyCriterion`, where a claim hinges on exactly that behaviour,
  division is modelled by `pydiv` returning `Except`; elsewhere theorems
  carry positivity hypotheses that keep every divisor nonzero.
* `datetime.now()` is modelled by an explicit `now : ℚ` parameter,
  measured in days; `date()` is the floor.  `timedelta(days=k)` is `k`.
* Python f-string messages are replaced by constant strings with the
  same truthiness (empty vs. non-empty); the `details` dictionaries of
  risk-check results, which no claim inspects, are not modelled.
-/

namespace QuantBot

/-- `np.sign` on rationals. -/
def npSign (x : ℚ) : ℚ := if 0 < x then 1 else if x < 0 then -1 else 0

/-- Python `int()` truncation toward zero applied to a rational. -/
def truncToInt (q : ℚ) : ℚ := if 0 ≤ q then ((⌊q⌋ : ℤ) : ℚ) else ((⌈q⌉ : ℤ) : ℚ)

/-- Python float division: raises `ZeroDivisionError` on a zero divisor. -/
def pydiv (a b : ℚ) : Except String ℚ :=
  if b = 0 then .error "ZeroDivisionError" else .ok (a / b)

/-- `PositionSize` dataclass of `risk/position_sizer.py`, parametric in the
numeric type (`ℚ` for the sizers the simulator uses, `ℝ` for the
volatility-targeting sizer whose volatility estimate needs square roots). -/
structure PositionSize (α : Type) where
  shares : α
  dollar_value : α
  weight : α
  risk_amount : α
  position_type : String
  reason : String
  deriving Repr, DecidableEq

/-! ## FixedFractionalSizer -/

/-- Constructor parameters of `FixedFractionalSizer`. -/
structure FixedFractionalSizer where
  fraction : ℚ
  max_position : ℚ
  deriving Repr, DecidableEq

/-- Source defaults: `fraction=0.02`, `max_position=0.10`. -/
def FixedFractionalSizer.default : FixedFractionalSizer := ⟨2/100, 10/100⟩

/-- `FixedFractionalSizer.calculate_size`.  `stop_loss_pct` defaults to
`0.02` in the source; callers that rely on the default pass `2/100`. -/
def FixedFractionalSizer.calculate_size (self : FixedFractionalSizer)
    (capital price signal_strength stop_loss_pct : ℚ) : PositionSize ℚ :=
  let risk_amount := capital * self.fraction * signal_strength
  let position_value := risk_amount / stop_loss_pct
  let max_value := capital * self.max_position
  let value := if position_value > max_value then max_value else position_value
  let position_type := if position_value > max_value then "reduced" else "full"
  let reason := if position_value > max_value then "Capped at max position" else ""
  { shares := value / price
    dollar_value := value
    weight := value / capital
    risk_amount := risk_amount
    position_type := position_type
    reason := reason }

/-! ## KellyCriterion -/

/-- `KellyCriterion` sizer: constructor parameters plus the running
win/loss statistics mutated by `update_stats`. -/
structure KellyCriterion where
  kelly_fraction : ℚ
  max_position : ℚ
  min_trades : ℕ
  wins : ℕ
  losses : ℕ
  total_win : ℚ
  total_loss : ℚ
  deriving Repr, DecidableEq

/-- A freshly constructed `KellyCriterion` (zero recorded trades). -/
def KellyCriterion.mk0 (kelly_fraction max_position : ℚ) (min_trades : ℕ) :
    KellyCriterion :=
  ⟨kelly_fraction, max_position, min_trades, 0, 0, 0, 0⟩

/-- `KellyCriterion.update_stats`: a strictly positive pnl counts as a win,
anything else (including zero) as a loss. -/
def KellyCriterion.update_stats (self : KellyCriterion) (pnl : ℚ) : KellyCriterion :=
  if 0 < pnl then
    { self with wins := self.wins + 1, total_win := self.total_win + pnl }
  else
    { self with losses := self.losses + 1, total_loss := self.total_loss + |pnl| }

/-- `KellyCriterion.calculate_kelly`, returning the `(kelly_pct, reason)`
pair or the uncaught Python exception.  The divisions mirror the source
line by line; `win_loss_ratio` is `0` whenever no win was ever recorded,
and the subsequent `(1 - win_rate) / win_loss_ratio` then raises. -/
def KellyCriterion.calculate_kelly (self : KellyCriterion) :
    Except String (ℚ × String) := do
  let total_trades := self.wins + self.losses
  if total_trades < self.min_trades then
    return (2/100, "Insufficient trades")
  let win_rate ← pydiv (self.wins : ℚ) (total_trades : ℚ)
  if self.losses = 0 then
    return (self.max_position, "No losses recorded")
  let avg_win ← pydiv self.total_win (max 1 (self.wins : ℚ))
  let avg_loss ← pydiv self.total_loss (max 1 (self.losses : ℚ))
  let win_loss_ratio ← pydiv avg_win avg_loss
  let q ← pydiv (1 - win_rate) win_loss_ratio
  let kelly := win_rate - q
  if kelly ≤ 0 then
    return ((0 : ℚ), "Negative Kelly - strategy not profitable")
  let adjusted_kelly := kelly * self.kelly_fraction
  return (min adjusted_kelly self.max_position, "")

/-- `KellyCriterion.calculate_size`. -/
def KellyCriterion.calculate_size (self : KellyCriterion)
    (capital price signal_strength : ℚ) : Except String (PositionSize ℚ) := do
  let (kelly_pct, reason) ← self.calculate_kelly
  if kelly_pct ≤ 0 then
    return { shares := 0, dollar_value := 0, weight := 0, risk_amount := 0,
             position_type := "rejected", reason := reason }
  let position_value := capital * kelly_pct * signal_strength
  let shares ← pydiv position_value price
  let weight ← pydiv position_value capital
  return { shares := shares, dollar_value := position_value, weight := weight,
           risk_amount := position_value * (2/100),
           position_type := if reason = "" then "full" else "reduced",
           reason := reason }

/-! ## VolatilityTargeting

The volatility estimate (`std * sqrt 252`) needs real square roots, so this
sizer is modelled over `ℝ`. -/

/-- Mean of a list of reals (`0` when empty; junk value, never hit by the
source on a nonempty window). -/
noncomputable def listMean (l : List ℝ) : ℝ := l.sum / l.length

/-- `pandas` sample standard deviation (`ddof = 1`). -/
noncomputable def sampleStd (l : List ℝ) : ℝ :=
  Real.sqrt ((l.map (fun x => (x - listMean l) ^ 2)).sum / (l.length - 1))

/-- `Series.tail(k)`: last `k` elements. -/
def listTail (l : List ℝ) (k : ℕ) : List ℝ := l.drop (l.length - k)

/-- Constructor parameters of `VolatilityTargeting`. -/
structure VolatilityTargeting where
  target_volatility : ℝ
  max_leverage : ℝ
  vol_lookback : ℕ

/-- `VolatilityTargeting.calculate_volatility`. -/
noncomputable def VolatilityTargeting.calculate_volatility
    (self : VolatilityTargeting) (returns : List ℝ) : ℝ :=
  if returns.length < self.vol_lookback then 20/100
  else sampleStd (listTail returns self.vol_lookback) * Real.sqrt 252

/-- `VolatilityTargeting.calculate_size`; the optional `returns` and
`current_volatility` keyword arguments are `Option`s, `none` meaning the
Python default `None`. -/
noncomputable def VolatilityTargeting.calculate_size (self : VolatilityTargeting)
    (capital price signal_strength : ℝ)
    (returns : Option (List ℝ)) (current_volatility : Option ℝ) :
    PositionSize ℝ :=
  let vol0 : ℝ :=
    match current_volatility with
    | some v => v
    | none =>
      match returns with
      | some r => self.calculate_volatility r
      | none => 20/100
  let vol := max vol0 (1/100)
  let vol_scalar0 := self.target_volatility / vol
  let vol_scalar := min vol_scalar0 self.max_leverage
  let position_value := capital * vol_scalar * signal_strength
  { shares := position_value / price
    dollar_value := position_value
    weight := vol_scalar * signal_strength
    risk_amount := position_value * (vol / Real.sqrt 252)
    position_type := if vol_scalar ≥ self.max_leverage then "reduced" else "full"
    reason := if vol_scalar ≥ self.max_leverage then "Leverage capped" else "" }

/-! ## Execution simulator (`backtest/engine.py`, `_run_vectorized`)

The engine is modelled as a fold of a per-bar step over bar indices
`1, …, n-1`.  `data.index[i]` (a timestamp) is modelled by the bar index
itself.  The position sizer is the function the engine actually calls:
`capital ↦ price ↦ signal_strength ↦ PositionSize`. -/

/-- The `BacktestConfig` fields `_run_vectorized` reads (plus
`margin_requirement`, which it carries but never reads). -/
structure BacktestConfig where
  initial_capital : ℚ
  commission : ℚ
  slippage : ℚ
  margin_requirement : ℚ
  fractional_shares : Bool
  allow_shorting : Bool
  deriving Repr, DecidableEq

/-- The `Trade` dataclass of `backtest/engine.py`; dates are bar indices. -/
structure BTrade where
  symbol : String
  side : String
  entry_date : ℕ
  exit_date : ℕ
  entry_price : ℚ
  exit_price : ℚ
  quantity : ℚ
  pnl : ℚ
  pnl_pct : ℚ
  commission : ℚ
  holding_period : ℕ
  deriving Repr, DecidableEq

/-- One row of the engine's `position_history` (`date`, `shares`, `cash`,
`equity`); `date` is the bar index. -/
structure HistEntry where
  date : ℕ
  shares : ℚ
  cash : ℚ
  equity : ℚ
  deriving Repr, DecidableEq

/-- The loop state of `_run_vectorized`. -/
structure EngineState where
  cash : ℚ
  shares : ℚ
  entry_price : ℚ
  entry_idx : ℕ
  trades : List BTrade
  history : List HistEntry
  deriving Repr, DecidableEq

/-- Loop state before the first iteration. -/
def initState (cfg : BacktestConfig) : EngineState :=
  ⟨cfg.initial_capital, 0, 0, 0, [], []⟩

/-- The close-position block of the loop body of `_run_vectorized`
(`if shares != 0` inside a signal change): realise the P&L, charge the
commission, record the `Trade` and flatten the position. -/
def closePhase (cfg : BacktestConfig) (execution_price : ℚ) (i : ℕ)
    (s : EngineState) : EngineState :=
  if s.shares ≠ 0 then
    let pnl :=
      if 0 < s.shares then (execution_price - s.entry_price) * s.shares
      else (s.entry_price - execution_price) * |s.shares|
    let commission := |s.shares| * execution_price * cfg.commission
    { s with
      cash := s.cash + s.shares * execution_price - commission
      shares := 0
      trades := s.trades ++
        [{ symbol := "ASSET"
           side := if 0 < s.shares then "long" else "short"
           entry_date := s.entry_idx
           exit_date := i
           entry_price := s.entry_price
           exit_price := execution_price
           quantity := |s.shares|
           pnl := pnl - commission
           pnl_pct := (execution_price / s.entry_price - 1) * npSign s.shares
           commission := commission
           holding_period := i - s.entry_idx }] }
  else s

/-- The open-position block of the loop body of `_run_vectorized`
(`if curr_signal != 0` inside a signal change): size the new position,
truncate to whole shares unless fractional, skip disallowed shorts, and
deduct cost plus commission when shares were obtained. -/
def openPhase (cfg : BacktestConfig) (sizer : ℚ → ℚ → ℚ → PositionSize ℚ)
    (execution_price curr_signal : ℚ) (i : ℕ) (s2 : EngineState) :
    EngineState :=
  if curr_signal ≠ 0 then
    let size := sizer s2.cash execution_price |curr_signal|
    let new_shares : ℚ :=
      if 0 < curr_signal then
        (if cfg.fractional_shares then size.shares else truncToInt size.shares)
      else if curr_signal < 0 ∧ cfg.allow_shorting then
        (if cfg.fractional_shares then -size.shares
         else -(truncToInt size.shares))
      else s2.shares
    if new_shares ≠ 0 then
      let commission := |new_shares| * execution_price * cfg.commission
      { s2 with
        shares := new_shares
        cash := s2.cash - (|new_shares| * execution_price + commission)
        entry_price := execution_price
        entry_idx := i }
    else { s2 with shares := new_shares }
  else s2

/-- The position-change phase of the loop body of `_run_vectorized` (the
`if curr_signal != prev_signal` block: close the open position, then open
the new one). -/
def stepTrade (cfg : BacktestConfig) (sizer : ℚ → ℚ → ℚ → PositionSize ℚ)
    (closes sigs : List ℚ) (s : EngineState) (i : ℕ) : EngineState :=
  let current_price := closes.getD i 0
  let prev_signal := sigs.getD (i - 1) 0
  let curr_signal := sigs.getD i 0
  let execution_price :=
    current_price * (1 + cfg.slippage * npSign (curr_signal - prev_signal))
  if curr_signal ≠ prev_signal then
    openPhase cfg sizer execution_price curr_signal i
      (closePhase cfg execution_price i s)
  else s

/-- The body of the `for i in range(1, n)` loop of `_run_vectorized`:
the position-change phase followed by the mark-to-market equity update
and the position-history append. -/
def stepBar (cfg : BacktestConfig) (sizer : ℚ → ℚ → ℚ → PositionSize ℚ)
    (closes sigs : List ℚ) (s : EngineState) (i : ℕ) : EngineState :=
  let current_price := closes.getD i 0
  let s1 := stepTrade cfg sizer closes sigs s i
  let equity_i :=
    if 0 < s1.shares then s1.cash + s1.shares * current_price
    else if s1.shares < 0 then s1.cash + s1.shares * current_price
    else s1.cash
  { s1 with history := s1.history ++ [⟨i, s1.shares, s1.cash, equity_i⟩] }

/-- `_run_vectorized`: fold the per-bar step over `i = 1, …, n-1`. -/
def run_vectorized (cfg : BacktestConfig) (sizer : ℚ → ℚ → ℚ → PositionSize ℚ)
    (closes sigs : List ℚ) : EngineState :=
  (List.range' 1 (closes.length - 1)).foldl (stepBar cfg sizer closes sigs)
    (initState cfg)

/-- Last value of the equity curve: the equity of the last position-history
row, or `initial_capital` when the loop never ran (`equity[0]`). -/
def lastEquity (cfg : BacktestConfig) (s : EngineState) : ℚ :=
  match s.history.getLast? with
  | none => cfg.initial_capital
  | some e => e.equity

/-- Total P&L of a run: final equity minus initial capital. -/
def totalPnl (cfg : BacktestConfig) (sizer : ℚ → ℚ → ℚ → PositionSize ℚ)
    (closes sigs : List ℚ) : ℚ :=
  lastEquity cfg (run_vectorized cfg sizer closes sigs) - cfg.initial_capital

/-- The fixed-fractional sizer exactly as the engine invokes it:
`calculate_size(capital=cash, price=execution_price, signal_strength=|signal|)`
with `stop_loss_pct` left at its default `0.02`. -/
def ffSizer (f : FixedFractionalSizer) : ℚ → ℚ → ℚ → PositionSize ℚ :=
  fun capital price signal_strength =>
    f.calculate_size capital price signal_strength (2/100)

/-! ## Risk manager (`risk/risk_manager.py`)

Every method that calls `datetime.now()` takes an explicit `now : ℚ`
(time in days, `date()` = floor).  Methods that mutate `self` return the
new state; the read-only checks return just a `RiskCheckResult`. -/

/-- The `RiskAction` enum. -/
inductive RiskAction where
  | allow | reduce | reject | closeAll | haltTrading
  deriving Repr, DecidableEq

/-- The `RiskLimits` dataclass. -/
structure RiskLimits where
  max_position_size : ℚ
  max_sector_exposure : ℚ
  max_correlation : ℚ
  max_positions : ℕ
  max_drawdown : ℚ
  max_daily_loss : ℚ
  max_leverage : ℚ
  min_cash_reserve : ℚ
  stop_loss_type : String
  stop_loss_pct : ℚ
  trailing_stop_pct : ℚ
  atr_stop_multiplier : ℚ
  max_trades_per_day : ℕ
  min_holding_period : ℕ
  drawdown_cooldown_days : ℕ
  deriving Repr, DecidableEq

/-- Source defaults of `RiskLimits`. -/
def RiskLimits.default : RiskLimits :=
  ⟨10/100, 30/100, 70/100, 20, 15/100, 3/100, 1, 5/100, "atr", 2/100, 5/100, 2,
   10, 1, 5⟩

/-- The risk manager's `Position` dataclass (timestamps in days). -/
structure RMPosition where
  symbol : String
  quantity : ℚ
  entry_price : ℚ
  entry_date : ℚ
  current_price : ℚ
  side : String
  sector : String
  stop_loss : Option ℚ
  peak_price : ℚ
  deriving Repr, DecidableEq

/-- `Position.market_value`. -/
def RMPosition.market_value (p : RMPosition) : ℚ := |p.quantity| * p.current_price

/-- `RiskCheckResult` (`action`, `reason`); the diagnostic `details`
dictionary, which no claim inspects, is not modelled. -/
structure RiskCheckResult where
  action : RiskAction
  reason : String
  deriving Repr, DecidableEq

/-- The mutable state of a `RiskManager`.  `positions` is the dict keyed by
symbol, in insertion order; `trade_history` keeps the dictionaries produced
by `close_position` (opaque to every claim, kept as an abstract list). -/
structure RiskManager where
  limits : RiskLimits
  initial_capital : ℚ
  current_capital : ℚ
  positions : List (String × RMPosition)
  equity_history : List (ℚ × ℚ)
  peak_equity : ℚ
  trade_history : List (List (String × ℚ))
  daily_trades : ℕ
  last_trade_date : Option ℤ
  is_halted : Bool
  halt_reason : String
  cooldown_until : Option ℚ
  deriving Repr, DecidableEq

/-- `RiskManager.__init__`. -/
def RiskManager.mk0 (limits : RiskLimits) (initial_capital : ℚ) : RiskManager :=
  ⟨limits, initial_capital, initial_capital, [], [], initial_capital, [], 0,
   none, false, "", none⟩

/-- `datetime.date()` of a day-valued timestamp. -/
def dateOf (t : ℚ) : ℤ := ⌊t⌋

/-- `RiskManager.update_equity`. -/
def RiskManager.update_equity (s : RiskManager) (timestamp equity : ℚ) :
    RiskManager :=
  let s := { s with equity_history := s.equity_history ++ [(timestamp, equity)],
                    current_capital := equity }
  if equity > s.peak_equity then { s with peak_equity := equity } else s

/-- `RiskManager.get_current_drawdown`. -/
def RiskManager.get_current_drawdown (s : RiskManager) : ℚ :=
  if s.peak_equity = 0 then 0
  else (s.peak_equity - s.current_capital) / s.peak_equity

/-- `RiskManager.get_daily_pnl`: walk `equity_history[:-1]` backwards and
compare today's equity with the last entry dated before today. -/
def RiskManager.get_daily_pnl (s : RiskManager) (now : ℚ) : ℚ :=
  if s.equity_history.length < 2 then 0
  else
    let today := dateOf now
    match (s.equity_history.dropLast.reverse.find?
            (fun p => dateOf p.1 < today)) with
    | some p => (s.current_capital - p.2) / p.2
    | none => 0

/-- `RiskManager.check_drawdown_limits` (mutates the halt state on a
breach, hence returns the new state as well). -/
def RiskManager.check_drawdown_limits (s : RiskManager) (now : ℚ) :
    RiskCheckResult × RiskManager :=
  let current_dd := s.get_current_drawdown
  if current_dd ≥ s.limits.max_drawdown then
    (⟨.haltTrading, "Max drawdown breached"⟩,
     { s with is_halted := true
              halt_reason := "Max drawdown breached"
              cooldown_until :=
                some (now + (s.limits.drawdown_cooldown_days : ℚ)) })
  else if current_dd ≥ s.limits.max_drawdown * (8/10) then
    (⟨.reduce, "Approaching max drawdown"⟩, s)
  else (⟨.allow, ""⟩, s)

/-- `RiskManager.check_daily_loss_limit` (read-only). -/
def RiskManager.check_daily_loss_limit (s : RiskManager) (now : ℚ) :
    RiskCheckResult :=
  if s.get_daily_pnl now ≤ -s.limits.max_daily_loss then
    ⟨.haltTrading, "Daily loss limit breached"⟩
  else ⟨.allow, ""⟩

/-- Dict key membership `symbol in self.positions`. -/
def RiskManager.has_position (s : RiskManager) (symbol : String) : Bool :=
  s.positions.any (fun kv => kv.1 == symbol)

/-- `RiskManager.check_position_limits` (read-only). -/
def RiskManager.check_position_limits (s : RiskManager) (symbol : String)
    (proposed_value : ℚ) : RiskCheckResult :=
  let position_weight := proposed_value / s.current_capital
  if position_weight > s.limits.max_position_size then
    ⟨.reduce, "Position size exceeds limit"⟩
  else if s.positions.length ≥ s.limits.max_positions ∧
      ¬ s.has_position symbol then
    ⟨.reject, "Max positions reached"⟩
  else ⟨.allow, ""⟩

/-- `RiskManager.check_sector_exposure` (read-only). -/
def RiskManager.check_sector_exposure (s : RiskManager) (sector : String)
    (proposed_value : ℚ) : RiskCheckResult :=
  let sector_exposure :=
    (((s.positions.map Prod.snd).filter (fun p => p.sector = sector)).map
      RMPosition.market_value).sum
  let total_exposure := (sector_exposure + proposed_value) / s.current_capital
  if total_exposure > s.limits.max_sector_exposure then
    ⟨.reduce, "Sector exposure exceeds limit"⟩
  else ⟨.allow, ""⟩

/-- `RiskManager.check_leverage` (read-only). -/
def RiskManager.check_leverage (s : RiskManager) : RiskCheckResult :=
  let total_exposure := ((s.positions.map Prod.snd).map
    RMPosition.market_value).sum
  let leverage := total_exposure / s.current_capital
  if leverage > s.limits.max_leverage then
    ⟨.reduce, "Leverage exceeds limit"⟩
  else ⟨.allow, ""⟩

/-- `RiskManager.check_trade_frequency` (resets the daily counter on a date
rollover, hence returns the new state as well). -/
def RiskManager.check_trade_frequency (s : RiskManager) (now : ℚ) :
    RiskCheckResult × RiskManager :=
  let today := dateOf now
  let s1 :=
    if s.last_trade_date ≠ some today then
      { s with daily_trades := 0, last_trade_date := some today }
    else s
  if s1.daily_trades ≥ s1.limits.max_trades_per_day then
    (⟨.reject, "Daily trade limit reached"⟩, s1)
  else (⟨.allow, ""⟩, s1)

/-- Priority used by `check_all` to pick the most restrictive result. -/
def riskPriority : RiskAction → ℕ
  | .haltTrading => 5
  | .closeAll => 4
  | .reject => 3
  | .reduce => 2
  | .allow => 1

/-- Python `max(checks, key=priority)`: first element of maximal priority. -/
def mostRestrictive (r : RiskCheckResult) (rs : List RiskCheckResult) :
    RiskCheckResult :=
  rs.foldl
    (fun best c =>
      if riskPriority c.action > riskPriority best.action then c else best) r

/-- The ordered battery of rule checks run by `check_all` when not halted.
Python evaluates the six list elements in order on the mutating `self`:
only the drawdown check (first) and the trade-frequency check (last)
mutate state. -/
def RiskManager.run_checks (s : RiskManager) (now : ℚ) (symbol : String)
    (proposed_value : ℚ) (sector : String) : RiskCheckResult × RiskManager :=
  let (r1, s1) := s.check_drawdown_limits now
  let r2 := s1.check_daily_loss_limit now
  let r3 := s1.check_position_limits symbol proposed_value
  let r4 := s1.check_sector_exposure sector proposed_value
  let r5 := s1.check_leverage
  let (r6, s6) := s1.check_trade_frequency now
  (mostRestrictive r1 [r2, r3, r4, r5, r6], s6)

/-- The cooldown test in `check_all`: Python
`self.cooldown_until and datetime.now() >= self.cooldown_until`
(`None` is falsy, so a halt without a cooldown never expires). -/
def RiskManager.cooldown_over (s : RiskManager) (now : ℚ) : Bool :=
  match s.cooldown_until with
  | none => false
  | some cu => decide (now ≥ cu)

/-- Clearing of the halt state on cooldown expiry inside `check_all`. -/
def RiskManager.reset_halt (s : RiskManager) : RiskManager :=
  { s with is_halted := false, halt_reason := "", cooldown_until := none }

/-- `RiskManager.check_all`. -/
def RiskManager.check_all (s : RiskManager) (now : ℚ) (symbol : String)
    (proposed_value : ℚ) (sector : String) : RiskCheckResult × RiskManager :=
  if s.is_halted then
    if s.cooldown_over now then
      s.reset_halt.run_checks now symbol proposed_value sector
    else (⟨.haltTrading, s.halt_reason⟩, s)
  else s.run_checks now symbol proposed_value sector

/-! ## Metrics calculator (`backtest/metrics.py`)

Modelled over `ℝ` (annualisation needs real powers and square roots), so
the definitions in this section are noncomputable.  Floating NaN is not a
real number: a NaN produced by a pandas reduction on too-small input is
modelled as the junk value `0` (each such spot is commented), and the
`scipy.stats.ttest_1samp` call — an external library whose t-distribution
CDF has no closed form — is an explicit oracle parameter.  Series are
positionally indexed lists; a NaN entry of the input return series is
`none`. -/

/-- `pandas` `Series.dropna` on a float series. -/
def dropna (l : List (Option ℝ)) : List ℝ := l.filterMap id

/-- Trailing maxima (`Series.cummax`), auxiliary recursion. -/
def cummaxAux (m : ℝ) : List ℝ → List ℝ
  | [] => []
  | x :: xs => max m x :: cummaxAux (max m x) xs

/-- `Series.cummax`. -/
def cummax : List ℝ → List ℝ
  | [] => []
  | x :: xs => x :: cummaxAux x xs

/-- `Series.min` (`0` on an empty series; junk value, never hit). -/
def minD : List ℝ → ℝ
  | [] => 0
  | x :: xs => xs.foldl min x

/-- `max(l)` of Python (`0` when empty, guarded in the source). -/
def maxD : List ℝ → ℝ
  | [] => 0
  | x :: xs => xs.foldl max x

/-- The run-collecting loop of `_max_consecutive_true`. -/
def collectRuns : List Bool → ℕ → List ℕ
  | [], count => if count > 0 then [count] else []
  | b :: rest, count =>
    if b then collectRuns rest (count + 1)
    else (if count > 0 then [count] else []) ++ collectRuns rest 0

/-- `metrics._max_consecutive_true`. -/
def maxConsecutiveTrue (l : List Bool) : ℕ :=
  if l.all (fun b => b = false) then 0
  else
    let runs := collectRuns l 0
    match runs with
    | [] => 0
    | x :: xs => xs.foldl max x

/-- The fields of a `Trade` that `calculate_metrics` reads. -/
structure MTrade where
  pnl : ℝ
  pnl_pct : ℝ
  holding_period : ℕ

/-- The `PerformanceMetrics` dataclass. -/
structure PerformanceMetrics where
  total_return : ℝ
  annual_return : ℝ
  monthly_return : ℝ
  sharpe_ratio : ℝ
  sortino_ratio : ℝ
  calmar_ratio : ℝ
  information_ratio : ℝ
  max_drawdown : ℝ
  avg_drawdown : ℝ
  max_drawdown_duration : ℕ
  recovery_factor : ℝ
  win_rate : ℝ
  profit_factor : ℝ
  avg_win : ℝ
  avg_loss : ℝ
  largest_win : ℝ
  largest_loss : ℝ
  avg_trade : ℝ
  total_trades : ℕ
  winning_trades : ℕ
  losing_trades : ℕ
  avg_holding_period : ℝ
  t_stat : ℝ
  p_value : ℝ
  skewness : ℝ
  kurtosis : ℝ
  alpha : ℝ
  beta : ℝ
  correlation : ℝ
  tracking_error : ℝ
  volatility : ℝ
  downside_deviation : ℝ

/-- `metrics._empty_metrics`. -/
def emptyMetrics : PerformanceMetrics :=
  { total_return := 0, annual_return := 0, monthly_return := 0
    sharpe_ratio := 0, sortino_ratio := 0, calmar_ratio := 0
    information_ratio := 0
    max_drawdown := 0, avg_drawdown := 0, max_drawdown_duration := 0
    recovery_factor := 0
    win_rate := 0, profit_factor := 0, avg_win := 0, avg_loss := 0
    largest_win := 0, largest_loss := 0, avg_trade := 0
    total_trades := 0, winning_trades := 0, losing_trades := 0
    avg_holding_period := 0
    t_stat := 0, p_value := 1, skewness := 0, kurtosis := 0
    alpha := 0, beta := 1, correlation := 0, tracking_error := 0
    volatility := 0, downside_deviation := 0 }

open Classical in
/-- `pandas` `Series.skew` (adjusted Fisher-Pearson); NaN for fewer than
three observations is modelled as `0`. -/
noncomputable def pandasSkew (l : List ℝ) : ℝ :=
  if l.length < 3 then 0
  else
    let n : ℝ := l.length
    let m := listMean l
    let m2 := (l.map (fun x => (x - m) ^ 2)).sum / n
    let m3 := (l.map (fun x => (x - m) ^ 3)).sum / n
    Real.sqrt (n * (n - 1)) / (n - 2) * (m3 / m2 ^ ((3 : ℝ) / 2))

open Classical in
/-- `pandas` `Series.kurtosis` (adjusted excess kurtosis); NaN for fewer
than four observations is modelled as `0`. -/
noncomputable def pandasKurt (l : List ℝ) : ℝ :=
  if l.length < 4 then 0
  else
    let n : ℝ := l.length
    let m := listMean l
    let m2 := (l.map (fun x => (x - m) ^ 2)).sum / n
    let m4 := (l.map (fun x => (x - m) ^ 4)).sum / n
    let g2 := m4 / m2 ^ 2 - 3
    (n - 1) / ((n - 2) * (n - 3)) * ((n + 1) * g2 + 6)

/-- `pandas` sample covariance (`ddof = 1`) of two aligned series. -/
noncomputable def sampleCov (xs ys : List ℝ) : ℝ :=
  let mx := listMean xs
  let my := listMean ys
  ((xs.zip ys).map (fun p => (p.1 - mx) * (p.2 - my))).sum / (xs.length - 1)

open Classical in
/-- `calculate_metrics`.  `ttest` is the `scipy.stats.ttest_1samp` oracle
returning `(t_stat, p_value)`. -/
noncomputable def calculate_metrics (ttest : List ℝ → ℝ × ℝ)
    (returns : List (Option ℝ)) (equity_curve : List ℝ)
    (trades : List MTrade) (benchmark_returns : Option (List ℝ))
    (risk_free_rate : ℝ) : PerformanceMetrics :=
  let rets := dropna returns
  let n_days := rets.length
  if n_days < 2 then emptyMetrics
  else
    -- Return metrics (`iloc[-1] / iloc[0]`; an empty equity curve would
    -- raise an IndexError in Python, modelled by the junk default `0`).
    let total_return :=
      equity_curve.getLastD 0 / equity_curve.headI - 1
    let annual_return := (1 + total_return) ^ ((252 : ℝ) / n_days) - 1
    let monthly_return := (1 + total_return) ^ ((21 : ℝ) / n_days) - 1
    -- Volatility.
    let daily_vol := sampleStd rets
    let volatility := daily_vol * Real.sqrt 252
    let negative_returns := rets.filter (fun r => r < 0)
    let downside_deviation :=
      if negative_returns.length > 0 then
        sampleStd negative_returns * Real.sqrt 252
      else 1/1000
    -- Risk-adjusted metrics.
    let excess_return := annual_return - risk_free_rate
    let sharpe_ratio := if volatility > 0 then excess_return / volatility else 0
    let sortino_ratio :=
      if downside_deviation > 0 then excess_return / downside_deviation else 0
    -- Drawdown metrics.
    let peak := cummax equity_curve
    let drawdown := equity_curve.zipWith (fun e p => (e - p) / p) peak
    let max_drawdown := minD drawdown
    let negDraw := drawdown.filter (fun d => d < 0)
    let avg_drawdown := if negDraw ≠ [] then listMean negDraw else 0
    let max_dd_duration :=
      maxConsecutiveTrue (drawdown.map (fun d => decide (d < 0)))
    let calmar_ratio :=
      if max_drawdown ≠ 0 then annual_return / |max_drawdown| else 0
    let recovery_factor :=
      if max_drawdown ≠ 0 then total_return / |max_drawdown| else 0
    -- Trade metrics.
    let pnls := trades.map MTrade.pnl
    let wins := pnls.filter (fun p => 0 < p)
    let losses := pnls.filter (fun p => p < 0)
    let total_trades := trades.length
    let hasTrades : Prop := trades ≠ []
    let winning_trades := if hasTrades then wins.length else 0
    let losing_trades := if hasTrades then losses.length else 0
    let win_rate :=
      if hasTrades then
        (if total_trades > 0 then (wins.length : ℝ) / total_trades else 0)
      else 0
    let avg_win := if hasTrades ∧ wins ≠ [] then listMean wins else 0
    let avg_loss := if hasTrades ∧ losses ≠ [] then listMean losses else 0
    let largest_win := if hasTrades ∧ pnls ≠ [] then maxD pnls else 0
    let largest_loss := if hasTrades ∧ pnls ≠ [] then minD pnls else 0
    let avg_trade := if hasTrades then listMean pnls else 0
    let gross_profit := if hasTrades ∧ wins ≠ [] then wins.sum else 0
    let gross_loss := if hasTrades then
        (if losses ≠ [] then |losses.sum| else 1/1000) else 0
    let profit_factor :=
      if hasTrades ∧ gross_loss > 0 then gross_profit / gross_loss else 0
    let avg_holding_period :=
      if hasTrades then
        listMean (trades.map (fun t => (t.holding_period : ℝ)))
      else 0
    -- Statistical metrics (`scipy.stats.ttest_1samp` oracle).
    let tp := if rets.length > 2 then ttest rets else (0, 1)
    let skewness := pandasSkew rets
    let kurtosis := pandasKurt rets
    -- Benchmark comparison (positional alignment of the two series).
    let bstats :=
      match benchmark_returns with
      | some bench =>
        if bench.length > 0 then
          let aligned := rets.zip bench
          if aligned.length > 10 then
            let strat_ret := aligned.map Prod.fst
            let bench_ret := aligned.map Prod.snd
            let covariance := sampleCov strat_ret bench_ret
            let bench_var := sampleCov bench_ret bench_ret
            let beta := if bench_var > 0 then covariance / bench_var else 1
            let alpha := (listMean strat_ret - beta * listMean bench_ret) * 252
            let correlation :=
              covariance / (sampleStd strat_ret * sampleStd bench_ret)
            let excess := strat_ret.zipWith (fun a b => a - b) bench_ret
            let tracking_error := sampleStd excess * Real.sqrt 252
            let information_ratio :=
              if tracking_error > 0 then listMean excess * 252 / tracking_error
              else 0
            (alpha, beta, correlation, information_ratio, tracking_error)
          else ((0 : ℝ), (1 : ℝ), (0 : ℝ), (0 : ℝ), (0 : ℝ))
        else ((0 : ℝ), (1 : ℝ), (0 : ℝ), (0 : ℝ), (0 : ℝ))
      | none => ((0 : ℝ), (1 : ℝ), (0 : ℝ), (0 : ℝ), (0 : ℝ))
    { total_return := total_return
      annual_return := annual_return
      monthly_return := monthly_return
      sharpe_ratio := sharpe_ratio
      sortino_ratio := sortino_ratio
      calmar_ratio := calmar_ratio
      information_ratio := bstats.2.2.2.1
      max_drawdown := max_drawdown
      avg_drawdown := avg_drawdown
      max_drawdown_duration := max_dd_duration
      recovery_factor := recovery_factor
      win_rate := win_rate
      profit_factor := profit_factor
      avg_win := avg_win
      avg_loss := avg_loss
      largest_win := largest_win
      largest_loss := largest_loss
      avg_trade := avg_trade
      total_trades := total_trades
      winning_trades := winning_trades
      losing_trades := losing_trades
      avg_holding_period := avg_holding_period
      t_stat := tp.1
      p_value := tp.2
      skewness := skewness
      kurtosis := kurtosis
      alpha := bstats.1
      beta := bstats.2.1
      correlation := bstats.2.2.1
      tracking_error := bstats.2.2.2.2
      volatility := volatility
      downside_deviation := downside_deviation }

/-! ## Concrete instances used by the claim theorems -/

/-- A Kelly sizer (`kelly_fraction=0.25`, `max_position=0.20`) that has
recorded exactly ten losing trades of `-50` each and no winning trade. -/
def kellyAfterLosses (min_trades : ℕ) : KellyCriterion :=
  (fun s => KellyCriterion.update_stats s (-50))^[10]
    (KellyCriterion.mk0 (1/4) (1/5) min_trades)

/-- Cost-free shorting config: capital 100000, zero commission and
slippage, fractional shares, shorting allowed. -/
def cfgShortDemo : BacktestConfig := ⟨100000, 0, 0, 1/2, true, true⟩

/-- Whole-share config (`fractional_shares=False`) with commission `c`. -/
def cfgTrunc (c : ℚ) : BacktestConfig := ⟨100000, c, 0, 1/2, false, true⟩

/-- A risk manager one day into a run that lost 4% since yesterday's close
(equity 100000 → 96000), with default limits and no halt. -/
def rmDailyLossDemo : RiskManager :=
  { limits := RiskLimits.default
    initial_capital := 100000
    current_capital := 96000
    positions := []
    equity_history := [(1/2, 100000), (3/2, 96000)]
    peak_equity := 100000
    trade_history := []
    daily_trades := 0
    last_trade_date := none
    is_halted := false
    halt_reason := ""
    cooldown_until := none }

/-- A risk manager halted by a drawdown breach, cooling down until day 10. -/
def rmHaltedDemo : RiskManager :=
  { limits := RiskLimits.default
    initial_capital := 100000
    current_capital := 80000
    positions := []
    equity_history := [(1/2, 100000), (3/2, 80000)]
    peak_equity := 100000
    trade_history := []
    daily_trades := 0
    last_trade_date := none
    is_halted := true
    halt_reason := "Max drawdown breached"
    cooldown_until := some 10 }

/-- A risk manager currently 20% under its peak equity, not yet halted. -/
def rmDrawdownDemo : RiskManager :=
  { rmHaltedDemo with is_halted := false, halt_reason := "", cooldown_until := none }

/-! # Theorems settling the claims -/

/-- C8: the fixed-fractional sizer computes
`risk_amount = capital * fraction * signal_strength` and
`position_value = risk_amount / stop_loss_pct` capped at
`capital * max_position`; with `max_position=0.10`, `capital=100000`,
`stop_loss_pct=0.02`, `fraction=0.02`, `signal_strength=1` it returns
`dollar_value = 10000`, position type `reduced` and a non-empty reason. -/
theorem c8_fixed_fractional_formula_and_cap :
    ∀ f m capital price signal_strength stop_loss_pct price2 : ℚ,
      ((FixedFractionalSizer.mk f m).calculate_size capital price
          signal_strength stop_loss_pct).risk_amount
        = capital * f * signal_strength
      ∧ ((FixedFractionalSizer.mk f m).calculate_size capital price
          signal_strength stop_loss_pct).dollar_value
        = min (capital * f * signal_strength / stop_loss_pct) (capital * m)
      ∧ (FixedFractionalSizer.default.calculate_size 100000 price2 1
          (2/100)).dollar_value = 10000
      ∧ (FixedFractionalSizer.default.calculate_size 100000 price2 1
          (2/100)).position_type = "reduced"
      ∧ (FixedFractionalSizer.default.calculate_size 100000 price2 1
          (2/100)).reason ≠ "" := by
  intro f m capital price ss slp price2
  refine ⟨rfl, ?_, ?_, ?_, ?_⟩
  · simp only [FixedFractionalSizer.calculate_size]
    rcases lt_or_ge (capital * m) (capital * f * ss / slp) with h | h
    · rw [if_pos h, min_eq_right h.le]
    · rw [if_neg (not_lt.mpr h), min_eq_left h]
  · norm_num [FixedFractionalSizer.calculate_size, FixedFractionalSizer.default]
  · norm_num [FixedFractionalSizer.calculate_size, FixedFractionalSizer.default]
  · norm_num [FixedFractionalSizer.calculate_size, FixedFractionalSizer.default]
    decide

/-- C3 (code bug): a Kelly sizer that recorded 10 losses and no win does
not return a rejected zero-share size.  With `min_trades = 10` the
`calculate_kelly` formula divides by the zero win/loss ratio and raises
`ZeroDivisionError`; with the default `min_trades = 30` it returns the
insufficient-history default fraction, a `reduced` position of `40/3`
shares rather than a rejection. -/
theorem c3_kelly_all_losses_bug :
    (kellyAfterLosses 10).calculate_size 100000 150 1
      = .error "ZeroDivisionError"
    ∧ (kellyAfterLosses 30).calculate_size 100000 150 1
      = .ok ⟨40/3, 2000, 1/50, 40, "reduced", "Insufficient trades"⟩ := by
  constructor
  · norm_num [kellyAfterLosses, KellyCriterion.mk0, KellyCriterion.update_stats,
      KellyCriterion.calculate_size, KellyCriterion.calculate_kelly, pydiv,
      Nat.iterate, Except.bind, bind, pure, Except.pure]
  · norm_num [kellyAfterLosses, KellyCriterion.mk0, KellyCriterion.update_stats,
      KellyCriterion.calculate_size, KellyCriterion.calculate_kelly, pydiv,
      Nat.iterate, Except.bind, bind, pure, Except.pure]
    exact fun h => absurd h (by decide)

/-- C6 counterexample: the volatility-targeting sizer called with capital
100000, price 100, signal strength 1 and current volatility 0.01 returns a
`reduced` position whose portfolio weight is 2, outside `[0, 1]`. -/
theorem c6_counterexample_weight_above_one :
    ((VolatilityTargeting.mk (15/100) 2 20).calculate_size 100000 100 1 none
        (some (1/100))).position_type = "reduced"
    ∧ ((VolatilityTargeting.mk (15/100) 2 20).calculate_size 100000 100 1 none
        (some (1/100))).weight = 2
    ∧ ¬ ((VolatilityTargeting.mk (15/100) 2 20).calculate_size 100000 100 1 none
        (some (1/100))).weight ≤ 1 := by
  norm_num [VolatilityTargeting.calculate_size, max_self, min_def]

/-- C6 (amended): position-size weights are bounded by each sizer's own
cap, not uniformly by 1: the fixed-fractional sizer (positive capital,
nonnegative fraction and signal, positive stop, `max_position ∈ [0,1]`)
returns a full/reduced position with weight in `[0,1]`; the
volatility-targeting sizer's weight lies in `[0, max_leverage * ss]`
(it may exceed 1, as the counterexample shows); and a Kelly size with
positive capital, price and signal strength has `shares = 0` exactly when
it is `rejected`. -/
theorem c6_weight_invariant_amended :
    (∀ f m capital price ss slp : ℚ,
        0 < capital → 0 ≤ f → 0 ≤ ss → 0 < slp → 0 ≤ m → m ≤ 1 →
        (((FixedFractionalSizer.mk f m).calculate_size capital price ss
              slp).position_type = "full"
          ∨ ((FixedFractionalSizer.mk f m).calculate_size capital price ss
              slp).position_type = "reduced")
        ∧ 0 ≤ ((FixedFractionalSizer.mk f m).calculate_size capital price ss
              slp).weight
        ∧ ((FixedFractionalSizer.mk f m).calculate_size capital price ss
              slp).weight ≤ 1)
    ∧ (∀ (tv ml : ℝ) (lb : ℕ) (capital price ss : ℝ) (rs : Option (List ℝ))
          (cv : Option ℝ),
        0 ≤ tv → 0 ≤ ss → 0 ≤ ml →
        0 ≤ ((VolatilityTargeting.mk tv ml lb).calculate_size capital price ss
              rs cv).weight
        ∧ ((VolatilityTargeting.mk tv ml lb).calculate_size capital price ss
              rs cv).weight ≤ ml * ss)
    ∧ (∀ (k : KellyCriterion) (capital price ss : ℚ) (ps : PositionSize ℚ),
        0 < capital → 0 < price → 0 < ss →
        k.calculate_size capital price ss = .ok ps →
        (ps.position_type = "rejected" ↔ ps.shares = 0)) := by
  refine ⟨?_, ?_, ?_⟩
  · intro f m capital price ss slp hcap hf hss hslp hm hm1
    simp only [FixedFractionalSizer.calculate_size]
    split_ifs with h
    · refine ⟨Or.inr rfl, ?_, ?_⟩
      · have : capital * m / capital = m := by field_simp
        rw [this]; exact hm
      · have : capital * m / capital = m := by field_simp
        rw [this]; exact hm1
    · push_neg at h
      have hrw : capital * f * ss / slp / capital = f * ss / slp := by
        field_simp; ring
      refine ⟨Or.inl rfl, ?_, ?_⟩
      · rw [hrw]; positivity
      · rw [hrw]
        have h2 : capital * (f * ss / slp) ≤ capital * m := by
          calc capital * (f * ss / slp) = capital * f * ss / slp := by ring
          _ ≤ capital * m := h
        exact le_trans (le_of_mul_le_mul_left h2 hcap) hm1
  · intro tv ml lb capital price ss rs cv htv hss hml
    simp only [VolatilityTargeting.calculate_size]
    have hvol : (0:ℝ) < max (match cv with
        | some v => v
        | none => match rs with
          | some r => (VolatilityTargeting.mk tv ml lb).calculate_volatility r
          | none => 20/100) (1/100) :=
      lt_of_lt_of_le (by norm_num) (le_max_right _ _)
    constructor
    · exact mul_nonneg (le_min (div_nonneg htv hvol.le) hml) hss
    · exact mul_le_mul_of_nonneg_right (min_le_right _ _) hss
  · intro k capital price ss ps hcap hprice hss hok
    cases hk : k.calculate_kelly with
    | error e =>
      rw [KellyCriterion.calculate_size] at hok
      simp [hk, Except.bind, bind] at hok
    | ok pr =>
      obtain ⟨kp, reason⟩ := pr
      rw [KellyCriterion.calculate_size] at hok
      simp only [hk, bind, Except.bind, pure, Except.pure] at hok
      by_cases hkp : kp ≤ 0
      · rw [if_pos hkp] at hok
        cases hok
        simp
      · rw [if_neg hkp] at hok
        push_neg at hkp
        rw [pydiv, if_neg hprice.ne', pydiv] at hok
        simp only [Except.bind] at hok
        rw [if_neg hcap.ne'] at hok
        cases hok
        have hpv : 0 < capital * kp * ss := by positivity
        constructor
        · intro habs
          by_cases hr : reason = "" <;> simp [hr] at habs
        · intro habs
          exact absurd habs (by
            simp only
            exact ne_of_gt (div_pos hpv hprice))

/-- Witness for `c6_weight_invariant_amended` at concrete inputs. -/
theorem c6_weight_invariant_amended_witness :
    (0:ℚ) < 100000
    ∧ ((((FixedFractionalSizer.mk (2/100) (1/10)).calculate_size 100000 100 1
            (2/100)).position_type = "full"
        ∨ ((FixedFractionalSizer.mk (2/100) (1/10)).calculate_size 100000 100 1
            (2/100)).position_type = "reduced")
      ∧ 0 ≤ ((FixedFractionalSizer.mk (2/100) (1/10)).calculate_size 100000 100
            1 (2/100)).weight
      ∧ ((FixedFractionalSizer.mk (2/100) (1/10)).calculate_size 100000 100 1
            (2/100)).weight ≤ 1)
    ∧ (0 ≤ ((VolatilityTargeting.mk (15/100) 2 20).calculate_size 100000 100 1
            none (some (1/100))).weight
      ∧ ((VolatilityTargeting.mk (15/100) 2 20).calculate_size 100000 100 1
            none (some (1/100))).weight ≤ 2 * 1)
    ∧ (kellyAfterLosses 30).calculate_size 100000 150 1
        = .ok ⟨40/3, 2000, 1/50, 40, "reduced", "Insufficient trades"⟩
    ∧ (((⟨40/3, 2000, 1/50, 40, "reduced", "Insufficient trades"⟩ :
          PositionSize ℚ).position_type = "rejected")
        ↔ ((⟨40/3, 2000, 1/50, 40, "reduced", "Insufficient trades"⟩ :
          PositionSize ℚ).shares = 0)) := by
  have hok : (kellyAfterLosses 30).calculate_size 100000 150 1
      = .ok ⟨40/3, 2000, 1/50, 40, "reduced", "Insufficient trades"⟩ := by
    norm_num [kellyAfterLosses, KellyCriterion.mk0, KellyCriterion.update_stats,
      KellyCriterion.calculate_size, KellyCriterion.calculate_kelly, pydiv,
      Nat.iterate, Except.bind, bind, pure, Except.pure]
    exact fun h => absurd h (by decide)
  refine ⟨by norm_num, ?_, ?_, hok, ?_⟩
  · exact c6_weight_invariant_amended.1 (2/100) (1/10) 100000 100 1 (2/100)
      (by norm_num) (by norm_num) (by norm_num) (by norm_num) (by norm_num)
      (by norm_num)
  · exact c6_weight_invariant_amended.2.1 (15/100) 2 20 100000 100 1 none
      (some (1/100)) (by norm_num) (by norm_num) (by norm_num)
  · exact c6_weight_invariant_amended.2.2 (kellyAfterLosses 30) 100000 150 1 _
      (by norm_num) (by norm_num) (by norm_num) hok

/-- C9: with fewer than two non-NaN return observations,
`calculate_metrics` returns the neutral record (`_empty_metrics`: ratio,
return and trade fields 0, `p_value = 1`, `beta = 1`) without touching the
equity curve, trade list or benchmark, for every t-test oracle. -/
theorem c9_degenerate_returns_neutral_metrics (ttest : List ℝ → ℝ × ℝ)
    (returns : List (Option ℝ)) (equity_curve : List ℝ) (trades : List MTrade)
    (benchmark_returns : Option (List ℝ)) (risk_free_rate : ℝ)
    (h : (dropna returns).length < 2) :
    calculate_metrics ttest returns equity_curve trades benchmark_returns
        risk_free_rate = emptyMetrics
    ∧ (calculate_metrics ttest returns equity_curve trades benchmark_returns
        risk_free_rate).p_value = 1
    ∧ (calculate_metrics ttest returns equity_curve trades benchmark_returns
        risk_free_rate).beta = 1
    ∧ (calculate_metrics ttest returns equity_curve trades benchmark_returns
        risk_free_rate).total_return = 0
    ∧ (calculate_metrics ttest returns equity_curve trades benchmark_returns
        risk_free_rate).sharpe_ratio = 0
    ∧ (calculate_metrics ttest returns equity_curve trades benchmark_returns
        risk_free_rate).total_trades = 0 := by
  rw [calculate_metrics.eq_def, if_pos h]
  exact ⟨rfl, rfl, rfl, rfl, rfl, rfl⟩

/-- Witness for `c9_degenerate_returns_neutral_metrics`: a single-NaN
return series, empty equity curve and trade list, no benchmark. -/
theorem c9_degenerate_returns_neutral_metrics_witness :
    (dropna [none]).length < 2
    ∧ calculate_metrics (fun _ => (0, 0)) [none] [] [] none (2/100)
        = emptyMetrics := by
  have h : (dropna [none]).length < 2 := by decide
  exact ⟨h, (c9_degenerate_returns_neutral_metrics (fun _ => (0, 0)) [none] []
    [] none (2/100) h).1⟩

/-! ### Risk manager lemmas -/

lemma riskPriority_le_five (a : RiskAction) : riskPriority a ≤ 5 := by
  cases a <;> simp [riskPriority]

lemma mostRestrictive_halt (r : RiskCheckResult) (rs : List RiskCheckResult)
    (h : r.action = .haltTrading) :
    (mostRestrictive r rs).action = .haltTrading := by
  induction rs generalizing r with
  | nil => exact h
  | cons c cs ih =>
    have hstep : (if riskPriority c.action > riskPriority r.action then c
        else r) = r := by
      rw [if_neg]
      rw [h]
      exact not_lt.mpr (riskPriority_le_five _)
    simpa [mostRestrictive, hstep] using ih r h

lemma mostRestrictive_cons (r c : RiskCheckResult) (cs : List RiskCheckResult) :
    mostRestrictive r (c :: cs)
      = mostRestrictive
          (if riskPriority c.action > riskPriority r.action then c else r) cs :=
  rfl

lemma run_checks_snd (s : RiskManager) (now : ℚ) (symbol : String) (v : ℚ)
    (sector : String) :
    (s.run_checks now symbol v sector).2
      = ((s.check_drawdown_limits now).2.check_trade_frequency now).2 := by
  rw [RiskManager.run_checks]

lemma run_checks_fst (s : RiskManager) (now : ℚ) (symbol : String) (v : ℚ)
    (sector : String) :
    (s.run_checks now symbol v sector).1
      = mostRestrictive (s.check_drawdown_limits now).1
          [(s.check_drawdown_limits now).2.check_daily_loss_limit now,
           (s.check_drawdown_limits now).2.check_position_limits symbol v,
           (s.check_drawdown_limits now).2.check_sector_exposure sector v,
           (s.check_drawdown_limits now).2.check_leverage,
           ((s.check_drawdown_limits now).2.check_trade_frequency now).1] := by
  rw [RiskManager.run_checks]

lemma check_drawdown_limits_frame (s : RiskManager) (now : ℚ) :
    (s.check_drawdown_limits now).2.positions = s.positions
    ∧ (s.check_drawdown_limits now).2.current_capital = s.current_capital
    ∧ (s.check_drawdown_limits now).2.peak_equity = s.peak_equity
    ∧ (s.check_drawdown_limits now).2.equity_history = s.equity_history
    ∧ (s.check_drawdown_limits now).2.trade_history = s.trade_history
    ∧ (s.check_drawdown_limits now).2.daily_trades = s.daily_trades
    ∧ (s.check_drawdown_limits now).2.last_trade_date = s.last_trade_date
    ∧ (s.check_drawdown_limits now).2.limits = s.limits := by
  rw [RiskManager.check_drawdown_limits]
  split_ifs <;> exact ⟨rfl, rfl, rfl, rfl, rfl, rfl, rfl, rfl⟩

lemma check_trade_frequency_frame (s : RiskManager) (now : ℚ) :
    (s.check_trade_frequency now).2.positions = s.positions
    ∧ (s.check_trade_frequency now).2.current_capital = s.current_capital
    ∧ (s.check_trade_frequency now).2.peak_equity = s.peak_equity
    ∧ (s.check_trade_frequency now).2.equity_history = s.equity_history
    ∧ (s.check_trade_frequency now).2.trade_history = s.trade_history
    ∧ (s.check_trade_frequency now).2.is_halted = s.is_halted
    ∧ (s.check_trade_frequency now).2.halt_reason = s.halt_reason
    ∧ (s.check_trade_frequency now).2.cooldown_until = s.cooldown_until := by
  rw [RiskManager.check_trade_frequency]
  by_cases h : s.last_trade_date ≠ some (dateOf now) <;>
    simp [h] <;> split_ifs <;> exact ⟨rfl, rfl, rfl, rfl, rfl, rfl, rfl, rfl⟩

/-- C10: `check_all` is a pure permission query with respect to the
portfolio: it never changes the open-positions mapping, the current
capital, the peak equity, the equity history or the trade history —
whichever of its three paths (halted, cooldown expiry, normal battery)
it takes. -/
theorem c10_check_all_preserves_portfolio_state (s : RiskManager) (now : ℚ)
    (symbol : String) (v : ℚ) (sector : String) :
    (s.check_all now symbol v sector).2.positions = s.positions
    ∧ (s.check_all now symbol v sector).2.current_capital = s.current_capital
    ∧ (s.check_all now symbol v sector).2.peak_equity = s.peak_equity
    ∧ (s.check_all now symbol v sector).2.equity_history = s.equity_history
    ∧ (s.check_all now symbol v sector).2.trade_history = s.trade_history := by
  have hrc : ∀ t : RiskManager,
      (t.run_checks now symbol v sector).2.positions = t.positions
      ∧ (t.run_checks now symbol v sector).2.current_capital = t.current_capital
      ∧ (t.run_checks now symbol v sector).2.peak_equity = t.peak_equity
      ∧ (t.run_checks now symbol v sector).2.equity_history = t.equity_history
      ∧ (t.run_checks now symbol v sector).2.trade_history = t.trade_history := by
    intro t
    have h1 := check_drawdown_limits_frame t now
    have h2 := check_trade_frequency_frame (t.check_drawdown_limits now).2 now
    rw [run_checks_snd]
    exact ⟨h2.1.trans h1.1, (h2.2.1).trans h1.2.1, (h2.2.2.1).trans h1.2.2.1,
      (h2.2.2.2.1).trans h1.2.2.2.1, (h2.2.2.2.2.1).trans h1.2.2.2.2.1⟩
  by_cases hh : s.is_halted
  · by_cases hco : s.cooldown_over now
    · have := hrc s.reset_halt
      simpa [RiskManager.check_all, hh, hco, RiskManager.reset_halt] using this
    · simp [RiskManager.check_all, hh, hco]
  · simpa [RiskManager.check_all, hh] using hrc s

/-- C4: a drawdown at or above `max_drawdown` makes
`check_drawdown_limits` return `HaltTrading`, set the halt flag and start
the cooldown (`now + drawdown_cooldown_days`); while halted and before
the cooldown instant, `check_all` returns `HaltTrading` and leaves the
state untouched (no rule is evaluated); at the first `check_all` at or
after the cooldown instant the manager resets to active and runs the
normal rule battery on the reset state. -/
theorem c4_halted_short_circuit_until_cooldown (s t : RiskManager)
    (cu nowa now1 now2 : ℚ) (symbol : String) (v : ℚ) (sector : String)
    (ha : t.limits.max_drawdown ≤ t.get_current_drawdown)
    (hh : s.is_halted = true)
    (hcu : s.cooldown_until = some cu)
    (h1 : now1 < cu)
    (h2 : cu ≤ now2) :
    (t.check_drawdown_limits nowa).1.action = .haltTrading
    ∧ (t.check_drawdown_limits nowa).2.is_halted = true
    ∧ (t.check_drawdown_limits nowa).2.cooldown_until
        = some (nowa + (t.limits.drawdown_cooldown_days : ℚ))
    ∧ s.check_all now1 symbol v sector = (⟨.haltTrading, s.halt_reason⟩, s)
    ∧ s.check_all now2 symbol v sector
        = s.reset_halt.run_checks now2 symbol v sector
    ∧ s.reset_halt.is_halted = false := by
  have hdd : t.check_drawdown_limits nowa
      = (⟨.haltTrading, "Max drawdown breached"⟩,
         { t with is_halted := true
                  halt_reason := "Max drawdown breached"
                  cooldown_until :=
                    some (nowa + (t.limits.drawdown_cooldown_days : ℚ)) }) := by
    rw [RiskManager.check_drawdown_limits, if_pos ha]
  have hcov1 : s.cooldown_over now1 = false := by
    simp [RiskManager.cooldown_over, hcu]
    exact h1
  have hcov2 : s.cooldown_over now2 = true := by
    simp [RiskManager.cooldown_over, hcu]
    exact h2
  refine ⟨?_, ?_, ?_, ?_, ?_, rfl⟩
  · rw [hdd]
  · rw [hdd]
  · rw [hdd]
  · simp [RiskManager.check_all, hh, hcov1]
  · simp [RiskManager.check_all, hh, hcov2]

/-- Witness for `c4_halted_short_circuit_until_cooldown`: a manager 20%
under peak, and a halted manager with cooldown until day 10, probed before
(day 5) and after (day 12) expiry. -/
theorem c4_halted_short_circuit_until_cooldown_witness :
    (rmDrawdownDemo.check_drawdown_limits 2).1.action = .haltTrading
    ∧ (rmDrawdownDemo.check_drawdown_limits 2).2.is_halted = true
    ∧ (rmDrawdownDemo.check_drawdown_limits 2).2.cooldown_until
        = some (2 + (rmDrawdownDemo.limits.drawdown_cooldown_days : ℚ))
    ∧ rmHaltedDemo.check_all 5 "AAPL" 1000 "tech"
        = (⟨.haltTrading, rmHaltedDemo.halt_reason⟩, rmHaltedDemo)
    ∧ rmHaltedDemo.check_all 12 "AAPL" 1000 "tech"
        = rmHaltedDemo.reset_halt.run_checks 12 "AAPL" 1000 "tech"
    ∧ rmHaltedDemo.reset_halt.is_halted = false :=
  c4_halted_short_circuit_until_cooldown rmHaltedDemo rmDrawdownDemo 10 2 5 12
    "AAPL" 1000 "tech"
    (by norm_num [rmDrawdownDemo, rmHaltedDemo, RiskManager.get_current_drawdown,
      RiskLimits.default])
    rfl rfl (by norm_num) (by norm_num)

/-- C5 counterexample: a manager with a 4% daily loss (limit 3%) gets
`HaltTrading` from `check_all`, but the manager is *not* latched into the
halted state: `is_halted` is still `false` afterwards, so the next
`check_all` does not short-circuit by the halt flag. -/
theorem c5_counterexample_daily_loss_not_latched :
    (rmDailyLossDemo.check_all (3/2) "AAPL" 1000 "tech").1.action = .haltTrading
    ∧ (rmDailyLossDemo.check_all (3/2) "AAPL" 1000 "tech").2.is_halted
        = false := by
  norm_num [rmDailyLossDemo, RiskManager.check_all, RiskManager.run_checks,
    RiskLimits.default, RiskManager.check_drawdown_limits,
    RiskManager.check_daily_loss_limit, RiskManager.check_position_limits,
    RiskManager.check_sector_exposure, RiskManager.check_leverage,
    RiskManager.check_trade_frequency, RiskManager.get_current_drawdown,
    RiskManager.get_daily_pnl, dateOf, RiskManager.has_position,
    mostRestrictive, riskPriority, show ((none : Option ℤ) = some 1) = False by
      simp]

/-- C5 (amended): a daily-loss breach surfaces `HaltTrading` from
`check_daily_loss_limit` and from `check_all` (as the most restrictive
result), but it does not transition the state machine to Halted: the halt
flag is only set by a drawdown breach, so after a pure daily-loss breach
(drawdown still below `max_drawdown`) the manager's `is_halted` stays
`false` and the next `check_all` re-evaluates the full battery instead of
short-circuiting. -/
theorem c5_daily_loss_halt_not_latched_amended (s : RiskManager) (now : ℚ)
    (symbol : String) (v : ℚ) (sector : String)
    (hh : s.is_halted = false)
    (hdl : s.get_daily_pnl now ≤ -s.limits.max_daily_loss)
    (hdd : s.get_current_drawdown < s.limits.max_drawdown) :
    (s.check_daily_loss_limit now).action = .haltTrading
    ∧ (s.check_all now symbol v sector).1.action = .haltTrading
    ∧ (s.check_all now symbol v sector).2.is_halted = false := by
  have hdlr : s.check_daily_loss_limit now
      = ⟨.haltTrading, "Daily loss limit breached"⟩ := by
    rw [RiskManager.check_daily_loss_limit, if_pos hdl]
  have hdds : (s.check_drawdown_limits now).2 = s
      ∧ riskPriority (s.check_drawdown_limits now).1.action < 5 := by
    rw [RiskManager.check_drawdown_limits, if_neg (not_le.mpr hdd)]
    split_ifs <;> exact ⟨rfl, by norm_num [riskPriority]⟩
  have hca : s.check_all now symbol v sector
      = s.run_checks now symbol v sector := by
    simp [RiskManager.check_all, hh]
  refine ⟨by rw [hdlr], ?_, ?_⟩
  · rw [hca, run_checks_fst, hdds.1, hdlr, mostRestrictive_cons, if_pos]
    · exact mostRestrictive_halt _ _ rfl
    · exact hdds.2
  · rw [hca, run_checks_snd, hdds.1]
    exact ((check_trade_frequency_frame s now).2.2.2.2.2.1).trans hh

/-- Witness for `c5_daily_loss_halt_not_latched_amended` on the concrete
4%-daily-loss manager. -/
theorem c5_daily_loss_halt_not_latched_amended_witness :
    (rmDailyLossDemo.check_daily_loss_limit (3/2)).action = .haltTrading
    ∧ (rmDailyLossDemo.check_all (3/2) "IBM" 500 "tech").1.action = .haltTrading
    ∧ (rmDailyLossDemo.check_all (3/2) "IBM" 500 "tech").2.is_halted = false :=
  c5_daily_loss_halt_not_latched_amended rmDailyLossDemo (3/2) "IBM" 500 "tech"
    rfl
    (by norm_num [rmDailyLossDemo, RiskManager.get_daily_pnl, dateOf,
      RiskLimits.default])
    (by norm_num [rmDailyLossDemo, RiskManager.get_current_drawdown,
      RiskLimits.default])

/-! ### Execution simulator lemmas -/

lemma closePhase_history (cfg : BacktestConfig) (e : ℚ) (i : ℕ)
    (s : EngineState) : (closePhase cfg e i s).history = s.history := by
  rw [closePhase]
  split_ifs <;> rfl

lemma openPhase_history (cfg : BacktestConfig)
    (sizer : ℚ → ℚ → ℚ → PositionSize ℚ) (e c : ℚ) (i : ℕ)
    (s2 : EngineState) : (openPhase cfg sizer e c i s2).history = s2.history := by
  rw [openPhase]
  split_ifs <;> simp [apply_ite EngineState.history]

lemma stepTrade_history (cfg : BacktestConfig)
    (sizer : ℚ → ℚ → ℚ → PositionSize ℚ) (closes sigs : List ℚ)
    (s : EngineState) (i : ℕ) :
    (stepTrade cfg sizer closes sigs s i).history = s.history := by
  rw [stepTrade]
  split_ifs
  · rw [openPhase_history, closePhase_history]
  · rfl

lemma equity_collapse (c sh p : ℚ) :
    (if 0 < sh then c + sh * p else if sh < 0 then c + sh * p else c)
      = c + sh * p := by
  split_ifs with h1 h2
  · rfl
  · rfl
  · have hz : sh = 0 := le_antisymm (not_lt.mp h1) (not_lt.mp h2)
    simp [hz]

lemma stepBar_history_eq (cfg : BacktestConfig)
    (sizer : ℚ → ℚ → ℚ → PositionSize ℚ) (closes sigs : List ℚ)
    (s : EngineState) (i : ℕ) :
    (stepBar cfg sizer closes sigs s i).history
      = s.history ++
        [⟨i, (stepTrade cfg sizer closes sigs s i).shares,
             (stepTrade cfg sizer closes sigs s i).cash,
             (stepTrade cfg sizer closes sigs s i).cash
               + (stepTrade cfg sizer closes sigs s i).shares
                 * closes.getD i 0⟩] := by
  simp only [stepBar]
  rw [equity_collapse, stepTrade_history]

/-- C2: every row the simulator records in its position history satisfies
the accounting identity `equity = cash + shares * close[i]` — exactly, in
the rational-arithmetic model, for every config, sizer, bar series and
signal series. -/
theorem c2_accounting_identity (cfg : BacktestConfig)
    (sizer : ℚ → ℚ → ℚ → PositionSize ℚ) (closes sigs : List ℚ) :
    ∀ e ∈ (run_vectorized cfg sizer closes sigs).history,
      e.equity = e.cash + e.shares * closes.getD e.date 0 := by
  rw [run_vectorized]
  have key : ∀ (l : List ℕ) (s : EngineState),
      (∀ e ∈ s.history, e.equity = e.cash + e.shares * closes.getD e.date 0) →
      ∀ e ∈ (l.foldl (stepBar cfg sizer closes sigs) s).history,
        e.equity = e.cash + e.shares * closes.getD e.date 0 := by
    intro l
    induction l with
    | nil => intro s hs; exact hs
    | cons a l ih =>
      intro s hs
      apply ih
      intro e he
      rw [stepBar_history_eq] at he
      rcases List.mem_append.mp he with h | h
      · exact hs e h
      · rw [List.mem_singleton.mp h]
  exact key _ _ (by intro e he; cases he)

/-- Witness for `c2_accounting_identity` on a concrete flat run. -/
theorem c2_accounting_identity_witness :
    (⟨1, 0, 100000, 100000⟩ : HistEntry)
        ∈ (run_vectorized cfgShortDemo (ffSizer .default) [100, 102]
            [0, 0]).history
    ∧ (⟨1, 0, 100000, 100000⟩ : HistEntry).equity
        = (⟨1, 0, 100000, 100000⟩ : HistEntry).cash
          + (⟨1, 0, 100000, 100000⟩ : HistEntry).shares
            * [(100 : ℚ), 102].getD (⟨1, 0, 100000, 100000⟩ : HistEntry).date
                0 := by
  constructor
  · norm_num [cfgShortDemo, run_vectorized, stepBar, stepTrade, closePhase,
      openPhase, initState, ffSizer, FixedFractionalSizer.calculate_size,
      FixedFractionalSizer.default, npSign, List.range']
  · exact c2_accounting_identity cfgShortDemo (ffSizer .default) [100, 102]
      [0, 0] _ (by norm_num [cfgShortDemo, run_vectorized, stepBar, stepTrade,
        closePhase, openPhase, initState, ffSizer,
        FixedFractionalSizer.calculate_size, FixedFractionalSizer.default,
        npSign, List.range'])

/-- C1 (code bug): opening a short position destroys equity beyond the
explicit cost terms.  With zero commission and zero slippage, prices
`[100, 100]` and signals `[0, -1]`, the engine shorts 100 shares at bar 1
and records equity 80000 where continuity (equity 100000, no costs)
is required: `cash -= abs(shares) * price` pays for the shares *and*
holds the short, losing twice the position value. -/
theorem c1_short_open_breaks_equity_continuity :
    (run_vectorized cfgShortDemo (ffSizer .default) [100, 100] [0, -1]).history
      = [⟨1, -100, 90000, 80000⟩]
    ∧ cfgShortDemo.commission = 0
    ∧ cfgShortDemo.slippage = 0
    ∧ (80000 : ℚ) ≠ cfgShortDemo.initial_capital := by
  norm_num [cfgShortDemo, run_vectorized, stepBar, stepTrade, closePhase,
    openPhase, initState, ffSizer, FixedFractionalSizer.calculate_size,
    FixedFractionalSizer.default, npSign, List.range']

/-- C7 counterexample: with whole-share truncation
(`fractional_shares=False`) total P&L is not antitone in the commission
rate.  Prices `[100, 100, 100, 999, 1]`, signals `[0, 1, 0, 1, 0]`: both
runs make two trades, yet commission 0 yields P&L −9980 while commission
0.01 yields −9272 — the higher commission shrinks the losing second
position from 10 to 9 shares, more than recouping its own cost. -/
theorem c7_counterexample_commission_not_antitone :
    (run_vectorized (cfgTrunc 0) (ffSizer .default) [100, 100, 100, 999, 1]
        [0, 1, 0, 1, 0]).trades.length = 2
    ∧ (run_vectorized (cfgTrunc (1/100)) (ffSizer .default)
        [100, 100, 100, 999, 1] [0, 1, 0, 1, 0]).trades.length = 2
    ∧ totalPnl (cfgTrunc 0) (ffSizer .default) [100, 100, 100, 999, 1]
        [0, 1, 0, 1, 0] = -9980
    ∧ totalPnl (cfgTrunc (1/100)) (ffSizer .default) [100, 100, 100, 999, 1]
        [0, 1, 0, 1, 0] = -9272
    ∧ ¬ ((-9272 : ℚ) ≤ -9980) := by
  refine ⟨?_, ?_, ?_, ?_, by norm_num⟩ <;>
  norm_num [cfgTrunc, totalPnl, lastEquity, run_vectorized, stepBar, stepTrade,
    closePhase, openPhase, initState, ffSizer,
    FixedFractionalSizer.calculate_size, FixedFractionalSizer.default, npSign,
    truncToInt, List.range']

/-! ### Commission monotonicity (C7) -/


lemma npSign_bounds (x : ℚ) : -1 ≤ npSign x ∧ npSign x ≤ 1 := by
  unfold npSign
  split_ifs <;> norm_num

lemma exec_price_pos (p slip x : ℚ) (hp : 0 < p) (hsl : 0 ≤ slip)
    (hsl1 : slip < 1) : 0 < p * (1 + slip * npSign x) := by
  have hb := npSign_bounds x
  have h1 : slip * (-1) ≤ slip * npSign x :=
    mul_le_mul_of_nonneg_left hb.1 hsl
  have h2 : 0 < 1 + slip * npSign x := by nlinarith
  exact mul_pos hp h2

lemma closePhase_shares_zero (cfg : BacktestConfig) (e : ℚ) (i : ℕ)
    (s : EngineState) : (closePhase cfg e i s).shares = 0 := by
  by_cases h : s.shares ≠ 0
  · rw [closePhase, if_pos h]
  · rw [closePhase, if_neg h]
    exact not_not.mp h

lemma closePhase_cash_eq (cfg : BacktestConfig) (e : ℚ) (i : ℕ)
    (s : EngineState) (hs : 0 ≤ s.shares) :
    (closePhase cfg e i s).cash
      = s.cash + s.shares * e * (1 - cfg.commission) := by
  by_cases h : s.shares ≠ 0
  · rw [closePhase, if_pos h]
    show s.cash + s.shares * e - |s.shares| * e * cfg.commission = _
    rw [abs_of_pos (lt_of_le_of_ne hs (Ne.symm h))]
    ring
  · rw [closePhase, if_neg h]
    rw [not_not.mp h]
    ring

lemma ffSizer_shares (f m cash e ss : ℚ) (hcash : 0 ≤ cash) :
    (ffSizer ⟨f, m⟩ cash e ss).shares
      = cash * min (f * ss / (2/100)) m / e := by
  simp only [ffSizer, FixedFractionalSizer.calculate_size]
  have h1 : cash * f * ss / (2/100) = cash * (f * ss / (2/100)) := by ring
  rw [h1]
  rcases lt_or_ge (cash * m) (cash * (f * ss / (2/100))) with h | h
  · rw [if_pos h]
    have hc0 : 0 < cash := by
      rcases eq_or_lt_of_le hcash with hc | hc
      · exfalso
        rw [← hc] at h
        simp at h
      · exact hc
    have hmA : m < f * ss / (2/100) := lt_of_mul_lt_mul_left h hcash
    rw [min_eq_right hmA.le]
  · rw [if_neg (not_lt.mpr h)]
    rcases eq_or_lt_of_le hcash with hc | hc0
    · rw [← hc]
      simp
    · have hAm : f * ss / (2/100) ≤ m := le_of_mul_le_mul_left h hc0
      rw [min_eq_left hAm]

lemma openPhase_long_eq (cfg : BacktestConfig)
    (sizer : ℚ → ℚ → ℚ → PositionSize ℚ) (e curr : ℚ) (i : ℕ)
    (t : EngineState) (hcurr : 0 < curr)
    (hfrac : cfg.fractional_shares = true) :
    openPhase cfg sizer e curr i t
      = (if (sizer t.cash e |curr|).shares ≠ 0 then
          { t with
            shares := (sizer t.cash e |curr|).shares
            cash := t.cash - (|(sizer t.cash e |curr|).shares| * e
              + |(sizer t.cash e |curr|).shares| * e * cfg.commission)
            entry_price := e
            entry_idx := i }
         else { t with shares := (sizer t.cash e |curr|).shares }) := by
  rw [openPhase, if_pos (ne_of_gt hcurr)]
  simp only [if_pos hcurr, hfrac, if_true]

lemma openPhase_short_disallowed (cfg : BacktestConfig)
    (sizer : ℚ → ℚ → ℚ → PositionSize ℚ) (e curr : ℚ) (i : ℕ)
    (t : EngineState) (h1 : curr ≠ 0) (h2 : ¬ 0 < curr)
    (hshort : cfg.allow_shorting = false) (ht : t.shares = 0) :
    openPhase cfg sizer e curr i t = t := by
  rw [openPhase, if_pos h1]
  simp only [if_neg h2, hshort, Bool.false_eq_true, and_false, if_false, ht]
  rw [← ht]
  simp

lemma c7_open_rel (f m : ℚ) (cfg cfg' : BacktestConfig) (e curr : ℚ) (i : ℕ)
    (t1 t2 : EngineState)
    (hfrac : cfg.fractional_shares = true)
    (hfrac' : cfg'.fractional_shares = true)
    (hshort : cfg.allow_shorting = false)
    (hshort' : cfg'.allow_shorting = false)
    (he : 0 < e) (hf : 0 ≤ f) (hm : 0 ≤ m)
    (hc : 0 ≤ cfg.commission) (hcc : cfg.commission ≤ cfg'.commission)
    (hc1 : cfg'.commission ≤ 1) (hcap : m * (1 + cfg'.commission) ≤ 1)
    (ht1 : t1.shares = 0) (ht2 : t2.shares = 0)
    (h3 : 0 ≤ t2.cash) (h4 : t2.cash ≤ t1.cash) :
    0 ≤ (openPhase cfg' (ffSizer ⟨f, m⟩) e curr i t2).shares
    ∧ (openPhase cfg' (ffSizer ⟨f, m⟩) e curr i t2).shares
        ≤ (openPhase cfg (ffSizer ⟨f, m⟩) e curr i t1).shares
    ∧ 0 ≤ (openPhase cfg' (ffSizer ⟨f, m⟩) e curr i t2).cash
    ∧ (openPhase cfg' (ffSizer ⟨f, m⟩) e curr i t2).cash
        ≤ (openPhase cfg (ffSizer ⟨f, m⟩) e curr i t1).cash := by
  by_cases hz : curr = 0
  · have hnn : ¬(curr ≠ 0) := not_not.mpr hz
    rw [openPhase, if_neg hnn, openPhase, if_neg hnn]
    refine ⟨?_, ?_, h3, h4⟩
    · rw [ht2]
    · rw [ht1, ht2]
  · by_cases hp : 0 < curr
    · rw [openPhase_long_eq cfg _ e curr i t1 hp hfrac,
          openPhase_long_eq cfg' _ e curr i t2 hp hfrac']
      have hss : (0:ℚ) ≤ |curr| := abs_nonneg curr
      set α := min (f * |curr| / (2/100)) m with hαdef
      have hα : 0 ≤ α := le_min (by positivity) hm
      have hαm : α ≤ m := min_le_right _ _
      have hfac' : 0 ≤ 1 - α * (1 + cfg'.commission) := by
        have : α * (1 + cfg'.commission) ≤ m * (1 + cfg'.commission) :=
          mul_le_mul_of_nonneg_right hαm (by linarith)
        linarith
      have hfac : 0 ≤ 1 - α * (1 + cfg.commission) := by
        have h1 : α * (1 + cfg.commission) ≤ α * (1 + cfg'.commission) :=
          mul_le_mul_of_nonneg_left (by linarith) hα
        linarith
      have hfacle : 1 - α * (1 + cfg'.commission)
          ≤ 1 - α * (1 + cfg.commission) := by
        have h1 : α * (1 + cfg.commission) ≤ α * (1 + cfg'.commission) :=
          mul_le_mul_of_nonneg_left (by linarith) hα
        linarith
      have hns1 : (ffSizer ⟨f, m⟩ t1.cash e |curr|).shares
          = t1.cash * α / e := ffSizer_shares f m t1.cash e |curr| (h3.trans h4)
      have hns2 : (ffSizer ⟨f, m⟩ t2.cash e |curr|).shares
          = t2.cash * α / e := ffSizer_shares f m t2.cash e |curr| h3
      rw [hns1, hns2]
      have hns2n : 0 ≤ t2.cash * α / e := by positivity
      have hns1n : 0 ≤ t1.cash * α / e := by
        have := h3.trans h4
        positivity
      have hnsle : t2.cash * α / e ≤ t1.cash * α / e :=
        (div_le_div_iff_of_pos_right he).mpr (mul_le_mul_of_nonneg_right h4 hα)
      have hmul2 : t2.cash * α / e * e = t2.cash * α :=
        div_mul_cancel₀ _ (ne_of_gt he)
      have hmul1 : t1.cash * α / e * e = t1.cash * α :=
        div_mul_cancel₀ _ (ne_of_gt he)
      by_cases hn2 : t2.cash * α / e ≠ 0
      · have hn1 : t1.cash * α / e ≠ 0 := by
          intro h0
          exact hn2 (le_antisymm (h0 ▸ hnsle) hns2n)
        rw [if_pos hn1, if_pos hn2]
        refine ⟨hns2n, hnsle, ?_, ?_⟩
        · show (0:ℚ) ≤ t2.cash - _
          rw [abs_of_nonneg hns2n, hmul2]
          nlinarith [mul_nonneg h3 hfac']
        · show t2.cash - _ ≤ t1.cash - _
          rw [abs_of_nonneg hns2n, abs_of_nonneg hns1n, hmul2, hmul1]
          nlinarith [mul_le_mul h4 hfacle hfac' (h3.trans h4)]
      · rw [if_neg hn2]
        have hns2z : t2.cash * α / e = 0 := not_not.mp hn2
        by_cases hn1 : t1.cash * α / e ≠ 0
        · rw [if_pos hn1]
          refine ⟨hns2n, hnsle, h3, ?_⟩
          have hz2 : t2.cash * α = 0 := by
            have := hmul2
            rw [hns2z] at this
            linarith [this]
          rcases mul_eq_zero.mp hz2 with hcz | haz
          · show t2.cash ≤ t1.cash - _
            rw [abs_of_nonneg hns1n, hmul1, hcz]
            nlinarith [mul_nonneg (h3.trans h4) hfac]
          · exfalso
            apply hn1
            rw [haz]
            simp
        · rw [if_neg hn1]
          exact ⟨hns2n, hnsle, h3, h4⟩
    · rw [openPhase_short_disallowed cfg _ e curr i t1 hz hp hshort ht1,
          openPhase_short_disallowed cfg' _ e curr i t2 hz hp hshort' ht2]
      refine ⟨?_, ?_, h3, h4⟩
      · rw [ht2]
      · rw [ht1, ht2]

lemma c7_close_rel (cfg cfg' : BacktestConfig) (e : ℚ) (i : ℕ)
    (s1 s2 : EngineState) (he : 0 < e)
    (hc : 0 ≤ cfg.commission) (hcc : cfg.commission ≤ cfg'.commission)
    (hc1 : cfg'.commission ≤ 1)
    (h1 : 0 ≤ s2.shares) (h2 : s2.shares ≤ s1.shares)
    (h3 : 0 ≤ s2.cash) (h4 : s2.cash ≤ s1.cash) :
    0 ≤ (closePhase cfg' e i s2).cash
    ∧ (closePhase cfg' e i s2).cash ≤ (closePhase cfg e i s1).cash := by
  rw [closePhase_cash_eq cfg' e i s2 h1,
      closePhase_cash_eq cfg e i s1 (h1.trans h2)]
  constructor
  · have := mul_nonneg (mul_nonneg h1 he.le)
      (by linarith : (0:ℚ) ≤ 1 - cfg'.commission)
    linarith
  · have hmul : s2.shares * e * (1 - cfg'.commission)
        ≤ s1.shares * e * (1 - cfg.commission) :=
      mul_le_mul (mul_le_mul_of_nonneg_right h2 he.le) (by linarith)
        (by linarith) (mul_nonneg (h1.trans h2) he.le)
    linarith

lemma c7_stepTrade_rel (f m : ℚ) (cfg cfg' : BacktestConfig)
    (closes sigs : List ℚ) (i : ℕ) (s1 s2 : EngineState)
    (hfrac : cfg.fractional_shares = true)
    (hfrac' : cfg'.fractional_shares = true)
    (hshort : cfg.allow_shorting = false)
    (hshort' : cfg'.allow_shorting = false)
    (hslip : cfg.slippage = cfg'.slippage)
    (hsl : 0 ≤ cfg.slippage) (hsl1 : cfg.slippage < 1)
    (hf : 0 ≤ f) (hm : 0 ≤ m)
    (hc : 0 ≤ cfg.commission) (hcc : cfg.commission ≤ cfg'.commission)
    (hc1 : cfg'.commission ≤ 1) (hcap : m * (1 + cfg'.commission) ≤ 1)
    (hp : 0 < closes.getD i 0)
    (h1 : 0 ≤ s2.shares) (h2 : s2.shares ≤ s1.shares)
    (h3 : 0 ≤ s2.cash) (h4 : s2.cash ≤ s1.cash) :
    0 ≤ (stepTrade cfg' (ffSizer ⟨f, m⟩) closes sigs s2 i).shares
    ∧ (stepTrade cfg' (ffSizer ⟨f, m⟩) closes sigs s2 i).shares
        ≤ (stepTrade cfg (ffSizer ⟨f, m⟩) closes sigs s1 i).shares
    ∧ 0 ≤ (stepTrade cfg' (ffSizer ⟨f, m⟩) closes sigs s2 i).cash
    ∧ (stepTrade cfg' (ffSizer ⟨f, m⟩) closes sigs s2 i).cash
        ≤ (stepTrade cfg (ffSizer ⟨f, m⟩) closes sigs s1 i).cash := by
  rw [stepTrade, stepTrade]
  by_cases hch : sigs.getD i 0 ≠ sigs.getD (i - 1) 0
  · rw [if_pos hch, if_pos hch, ← hslip]
    set e := closes.getD i 0
      * (1 + cfg.slippage * npSign (sigs.getD i 0 - sigs.getD (i - 1) 0))
      with hedef
    have he : 0 < e := exec_price_pos _ _ _ hp hsl hsl1
    have hcl := c7_close_rel cfg cfg' e i s1 s2 he hc hcc hc1 h1 h2 h3 h4
    exact c7_open_rel f m cfg cfg' e (sigs.getD i 0) i
      (closePhase cfg e i s1) (closePhase cfg' e i s2)
      hfrac hfrac' hshort hshort' he hf hm hc hcc hc1 hcap
      (closePhase_shares_zero cfg e i s1) (closePhase_shares_zero cfg' e i s2)
      hcl.1 hcl.2
  · rw [if_neg hch, if_neg hch]
    exact ⟨h1, h2, h3, h4⟩

lemma stepBar_cash (cfg : BacktestConfig) (sizer : ℚ → ℚ → ℚ → PositionSize ℚ)
    (closes sigs : List ℚ) (s : EngineState) (i : ℕ) :
    (stepBar cfg sizer closes sigs s i).cash
      = (stepTrade cfg sizer closes sigs s i).cash := rfl

lemma stepBar_shares (cfg : BacktestConfig)
    (sizer : ℚ → ℚ → ℚ → PositionSize ℚ) (closes sigs : List ℚ)
    (s : EngineState) (i : ℕ) :
    (stepBar cfg sizer closes sigs s i).shares
      = (stepTrade cfg sizer closes sigs s i).shares := rfl

lemma lastEquity_stepBar (cfg : BacktestConfig)
    (sizer : ℚ → ℚ → ℚ → PositionSize ℚ) (closes sigs : List ℚ)
    (s : EngineState) (i : ℕ) :
    lastEquity cfg (stepBar cfg sizer closes sigs s i)
      = (stepTrade cfg sizer closes sigs s i).cash
        + (stepTrade cfg sizer closes sigs s i).shares * closes.getD i 0 := by
  rw [lastEquity.eq_def]
  rw [stepBar_history_eq, List.getLast?_concat]

lemma c7_fold_rel {R : EngineState → EngineState → Prop}
    (g1 g2 : EngineState → ℕ → EngineState) :
    ∀ l : List ℕ, (∀ i ∈ l, ∀ s1 s2, R s1 s2 → R (g1 s1 i) (g2 s2 i)) →
      ∀ s1 s2, R s1 s2 → R (l.foldl g1 s1) (l.foldl g2 s2) := by
  intro l
  induction l with
  | nil => intro _ s1 s2 h; exact h
  | cons a t ih =>
    intro hstep s1 s2 h
    exact ih (fun i hi u1 u2 hu => hstep i (List.mem_cons_of_mem _ hi) u1 u2 hu)
      _ _ (hstep a (List.mem_cons_self _ _) s1 s2 h)

/-- C7 (amended): for the engine with the fixed-fractional sizer,
fractional shares, shorting disallowed, positive prices, slippage in
`[0,1)`, commission rates `0 <= c <= c' <= 1` and a position cap small
enough that a round trip cannot overdraw cash
(`max_position * (1 + c') <= 1`), raising the commission rate from `c` to
`c'` can only lower (or keep) total P&L, for every bar series and signal
series.  (With whole-share truncation the claim fails, see the
counterexample.) -/
theorem c7_commission_antitone_amended (f m init c c' slip marg : ℚ) (closes sigs : List ℚ)
    (hinit : 0 ≤ init) (hf : 0 ≤ f) (hm : 0 ≤ m)
    (hc : 0 ≤ c) (hcc : c ≤ c') (hc1 : c' ≤ 1)
    (hcap : m * (1 + c') ≤ 1)
    (hsl : 0 ≤ slip) (hsl1 : slip < 1)
    (hpos : ∀ p ∈ closes, 0 < p) :
    totalPnl ⟨init, c', slip, marg, true, false⟩ (ffSizer ⟨f, m⟩) closes sigs
      ≤ totalPnl ⟨init, c, slip, marg, true, false⟩ (ffSizer ⟨f, m⟩) closes
          sigs := by
  set cfg : BacktestConfig := ⟨init, c, slip, marg, true, false⟩ with hcfg
  set cfg' : BacktestConfig := ⟨init, c', slip, marg, true, false⟩ with hcfg'
  have key : lastEquity cfg' (run_vectorized cfg' (ffSizer ⟨f, m⟩) closes sigs)
      ≤ lastEquity cfg (run_vectorized cfg (ffSizer ⟨f, m⟩) closes sigs) := by
    rw [run_vectorized, run_vectorized]
    have hrel := c7_fold_rel
      (R := fun s1 s2 =>
        0 ≤ s2.shares ∧ s2.shares ≤ s1.shares ∧ 0 ≤ s2.cash ∧ s2.cash ≤ s1.cash
        ∧ lastEquity cfg' s2 ≤ lastEquity cfg s1)
      (stepBar cfg (ffSizer ⟨f, m⟩) closes sigs)
      (stepBar cfg' (ffSizer ⟨f, m⟩) closes sigs)
      (List.range' 1 (closes.length - 1))
      ?_ (initState cfg) (initState cfg') ?_
    · exact hrel.2.2.2.2
    · intro i hi s1 s2 hR
      have hiL : i < closes.length := by
        have := List.mem_range'_1.mp hi
        omega
      have hp : 0 < closes.getD i 0 := by
        rw [List.getD_eq_getElem closes 0 hiL]
        exact hpos _ (List.getElem_mem hiL)
      have hq := c7_stepTrade_rel f m cfg cfg' closes sigs i s1 s2
        rfl rfl rfl rfl rfl hsl hsl1 hf hm hc hcc hc1 hcap hp
        hR.1 hR.2.1 hR.2.2.1 hR.2.2.2.1
      refine ⟨?_, ?_, ?_, ?_, ?_⟩
      · rw [stepBar_shares]; exact hq.1
      · rw [stepBar_shares, stepBar_shares]; exact hq.2.1
      · rw [stepBar_cash]; exact hq.2.2.1
      · rw [stepBar_cash, stepBar_cash]; exact hq.2.2.2
      · rw [lastEquity_stepBar, lastEquity_stepBar]
        exact add_le_add hq.2.2.2
          (mul_le_mul_of_nonneg_right hq.2.1 hp.le)
    · refine ⟨le_refl 0, le_refl 0, hinit, le_refl init, ?_⟩
      rw [lastEquity.eq_def, lastEquity.eq_def]
      show init ≤ init
      exact le_refl init
  rw [totalPnl, totalPnl]
  have : cfg'.initial_capital = cfg.initial_capital := rfl
  rw [this]
  exact sub_le_sub_right key _

/-- Witness for `c7_commission_antitone_amended` at concrete inputs. -/
theorem c7_commission_antitone_amended_witness :
    totalPnl ⟨100000, 1/1000, 0, 1/2, true, false⟩
        (ffSizer ⟨2/100, 1/10⟩) [100, 100] [0, 1]
      ≤ totalPnl ⟨100000, 0, 0, 1/2, true, false⟩
        (ffSizer ⟨2/100, 1/10⟩) [100, 100] [0, 1] :=
  c7_commission_antitone_amended (2/100) (1/10) 100000 0 (1/1000) 0 (1/2) [100, 100] [0, 1]
    (by norm_num) (by norm_num) (by norm_num) (by norm_num) (by norm_num)
    (by norm_num) (by norm_num) (by norm_num) (by norm_num)
    (by intro p hp; fin_cases hp <;> norm_num)

end QuantBot
